import Mathlib

/-!
Shallow embedding of `astrobin_headers_multithread.py`: a concurrent
header-extraction pipeline that discovers candidate file paths in a
PixInsight WBPP log, classifies each file's header (FITS keyword records or
XISF tag elements), normalizes six fields, aggregates LIGHT frames by a
composite key, and emits a sorted CSV summary table.

Python strings over the decoded latin-1 header text are modelled as
`List Char` / `String`; the specific regular expressions of the source are
embedded as deterministic matchers with the same leftmost-match,
ordered-alternation semantics; Python `float` is modelled by correctly
rounding the parsed literal to the nearest IEEE-754 binary64 value, on
which formatting and integer truncation then operate exactly; exceptions
are modelled with `Except`.
-/

namespace AstrobinWBPP

/-! ### Character and string helpers (Python `str` operations on latin-1 text)

The header keys, markers and field values handled by the source are ASCII,
so Python's `str.upper` / `str.lower` and `re.IGNORECASE` are modelled by
ASCII case mapping. -/

/-- ASCII uppercase of one character (models Python `str.upper` on the
ASCII subset actually present in headers). -/
def asciiUpper (c : Char) : Char :=
  if 'a' ≤ c && c ≤ 'z' then Char.ofNat (c.toNat - 32) else c

/-- ASCII lowercase of one character (models Python `str.lower`). -/
def asciiLower (c : Char) : Char :=
  if 'A' ≤ c && c ≤ 'Z' then Char.ofNat (c.toNat + 32) else c

/-- `val.upper()` over the character list. -/
def upperChars (s : List Char) : List Char := s.map asciiUpper

/-- Python `\s` (and `str`/`float` whitespace) on latin-1 text: space,
tab, newline, carriage return, vertical tab, form feed, the separator
controls U+001C–U+001F, next line U+0085 and no-break space U+00A0 (the
only further Unicode whitespace reachable from a latin-1 decode). -/
def isPySpace (c : Char) : Bool :=
  c = ' ' || c = '\t' || c = '\n' || c = '\r' || c = Char.ofNat 11 || c = Char.ofNat 12
  || (Char.ofNat 28 ≤ c && c ≤ Char.ofNat 31) || c = Char.ofNat 133 || c = Char.ofNat 160

/-- The single-quote character (code point 39). -/
def squote : Char := Char.ofNat 39

/-- Character class `[0-9.-]` of the FITS numeric-value alternative. -/
def isNumChar (c : Char) : Bool :=
  ('0' ≤ c && c ≤ '9') || c = '.' || c = '-'

/-- ASCII decimal digit. -/
def isDigitChar (c : Char) : Bool := '0' ≤ c && c ≤ '9'

/-- Does `t` start with the exact sequence `p`? -/
def startsWithSeq : List Char → List Char → Bool
  | [], _ => true
  | _ :: _, [] => false
  | p :: ps, c :: cs => p = c && startsWithSeq ps cs

/-- Does `t` contain `pat` as a contiguous subsequence (Python `in`)? -/
def containsSeq (pat : List Char) : List Char → Bool
  | [] => startsWithSeq pat []
  | c :: rest => startsWithSeq pat (c :: rest) || containsSeq pat rest

/-- Does `t` end with `pat` (Python `str.endswith`)? -/
def endsWithSeq (pat t : List Char) : Bool :=
  startsWithSeq pat.reverse t.reverse

/-- Match the literal `p` at the head of `t` case-insensitively
(`re.IGNORECASE`); returns the remaining suffix on success. -/
def matchCI : List Char → List Char → Option (List Char)
  | [], t => some t
  | _ :: _, [] => none
  | p :: ps, c :: cs => if asciiUpper p = asciiUpper c then matchCI ps cs else none

/-- Match the literal `p` at the head of `t` case-sensitively. -/
def matchLit : List Char → List Char → Option (List Char)
  | [], t => some t
  | _ :: _, [] => none
  | p :: ps, c :: cs => if p = c then matchLit ps cs else none

/-- Greedy `\s*`. -/
def skipWs (t : List Char) : List Char := t.dropWhile isPySpace

/-- `\s+`: at least one whitespace character, then greedily the rest. -/
def ws1 : List Char → Option (List Char)
  | [] => none
  | c :: r => if isPySpace c then some (skipWs r) else none

/-! ### The per-field header patterns (global `PATTERNS` table of the source)

FITS variant: `KEY\s*=\s*(?:'([^']*)'|([0-9.-]+))` with a synonym
alternation for `KEY`; XISF variant:
`<FITSKeyword\s+name="KEY"\s+value="([^"]+)"`.  Both are compiled with
`re.IGNORECASE` and used with `.search` (leftmost match, alternatives tried
in written order with full backtracking into the alternation). -/

/-- The value part of the FITS pattern at the current position:
`(?:'([^']*)'|([0-9.-]+))`, returning the captured group. -/
def fitsValue (t : List Char) : Option (List Char) :=
  if startsWithSeq [squote] t then
    let body := (t.drop 1).takeWhile (fun c => c != squote)
    let rest := (t.drop 1).dropWhile (fun c => c != squote)
    if startsWithSeq [squote] rest then some body else none
  else
    let num := t.takeWhile isNumChar
    if num.isEmpty then none else some num

/-- Attempt the FITS pattern for one synonym key at the current position. -/
def fitsAtKey (k : List Char) (t : List Char) : Option (List Char) :=
  match matchCI k t with
  | none => none
  | some r =>
    match skipWs r with
    | '=' :: r2 => fitsValue (skipWs r2)
    | _ => none

/-- Attempt the FITS pattern at the current position, trying the synonym
keys in alternation order. -/
def fitsAt : List (List Char) → List Char → Option (List Char)
  | [], _ => none
  | k :: ks, t =>
    match fitsAtKey k t with
    | some v => some v
    | none => fitsAt ks t

/-- Attempt the XISF pattern for one synonym key, with `t` positioned just
after `name="`. -/
def xisfAtKey (k : List Char) (t : List Char) : Option (List Char) :=
  match matchCI k t with
  | none => none
  | some r =>
    match r with
    | '"' :: r2 =>
      match ws1 r2 with
      | none => none
      | some r3 =>
        match matchCI ("value=\"".data) r3 with
        | none => none
        | some r4 =>
          let body := r4.takeWhile (fun c => c != '"')
          let rest := r4.dropWhile (fun c => c != '"')
          if body.isEmpty then none
          else if startsWithSeq ['"'] rest then some body else none
    | _ => none

/-- Try each synonym key (with its full continuation) in alternation
order, with the text positioned just after `name="`. -/
def xisfKeys : List (List Char) → List Char → Option (List Char)
  | [], _ => none
  | k :: ks, t =>
    match xisfAtKey k t with
    | some v => some v
    | none => xisfKeys ks t

/-- Attempt the XISF pattern
`<FITSKeyword\s+name="(?:K1|K2)"\s+value="([^"]+)"` at the current
position. -/
def xisfAt (ks : List (List Char)) (t : List Char) : Option (List Char) :=
  match matchCI ("<FITSKeyword".data) t with
  | none => none
  | some r =>
    match ws1 r with
    | none => none
    | some r2 =>
      match matchCI ("name=\"".data) r2 with
      | none => none
      | some r3 => xisfKeys ks r3

/-- `re.search`: scan start positions left to right, returning the first
position where the position matcher `f` succeeds. -/
def searchFrom (f : List Char → Option (List Char)) : List Char → Option (List Char)
  | [] => f []
  | c :: rest =>
    match f (c :: rest) with
    | some v => some v
    | none => searchFrom f rest

/-- Synonym keys of the `type` field: `IMAGETYP|TYPE`. -/
def typeKeys : List (List Char) := ["IMAGETYP".data, "TYPE".data]

/-- Synonym keys of the `date` field: `DATE-LOC|DATE-OBS|DATE`. -/
def dateKeys : List (List Char) := ["DATE-LOC".data, "DATE-OBS".data, "DATE".data]

/-- Synonym keys of the `filter` field: `FILTER|FILT`. -/
def filterKeys : List (List Char) := ["FILTER".data, "FILT".data]

/-- Synonym keys of the `exposure` field: `EXPTIME|EXPOSURE`. -/
def exposureKeys : List (List Char) := ["EXPTIME".data, "EXPOSURE".data]

/-- Synonym keys of the `gain` field: `GAIN|ISO`. -/
def gainKeys : List (List Char) := ["GAIN".data, "ISO".data]

/-- Synonym keys of the `binning` field: `XBINNING|BINNING`. -/
def binningKeys : List (List Char) := ["XBINNING".data, "BINNING".data]

/-- `patterns[field].search(header_text)` for the selected format. -/
def patSearch (isXisf : Bool) (ks : List (List Char)) (t : List Char) : Option (List Char) :=
  if isXisf then searchFrom (xisfAt ks) t else searchFrom (fitsAt ks) t

/-- `val.strip(c)` for a single strip character: remove every leading and
trailing occurrence of `c`. -/
def stripEnds (c : Char) (l : List Char) : List Char :=
  ((l.dropWhile (fun x => x = c)).reverse.dropWhile (fun x => x = c)).reverse

/-- `extract_val`: `None` for a missing match or an empty captured group,
otherwise the capture with surrounding single then double quotes
stripped (`val.strip("'").strip('"')`). -/
def extract_val : Option (List Char) → Option (List Char)
  | none => none
  | some v => if v.isEmpty then none else some (stripEnds '"' (stripEnds squote v))

/-- Python truthiness of an optional string: `None` and `""` are falsy. -/
def truthy : Option (List Char) → Bool
  | some (_ :: _) => true
  | _ => false

/-- Collapse a falsy value to `none`, matching the `if val` guards at every
call site of `extract_val`. -/
def getVal (o : Option (List Char)) : Option (List Char) :=
  if truthy o then o else none

/-- The value of one field of the header: search the pattern, extract and
clean the capture, and apply the call site's truthiness guard. -/
def fieldVal (isXisf : Bool) (ks : List (List Char)) (t : List Char) : Option (List Char) :=
  getVal (extract_val (patSearch isXisf ks t))

/-! ### Python numeric conversions

`float(val)` converts the string to the nearest IEEE-754 binary64 value
(correctly rounded, ties to even; overflow gives an infinity, underflow a
signed zero), and `f"{...:.2f}"` / `int(...)` then operate on that binary
value (CPython's fixed-point formatting is correctly rounded, half to
even, on the exact binary value; `int` truncates toward zero and raises on
an infinity or NaN).  The model reproduces this exactly with integer
arithmetic: the grammar (optional sign; digits with optional fraction and
optional exponent, with PEP-515 underscore grouping; `inf`/`infinity`/
`nan` case-insensitively) is parsed to an exact decimal, which is then
rounded to a binary64 value represented as `(-1)^neg * m * 2^k`
(`m < 2^53`, `k ≥ -1074`).  The sign is kept separate so that Python's
signed zero (`float("-0")` formatting as `-0.00`) is reproduced.  Digits
are ASCII (the latin-1 decode cannot produce the further Unicode digits
`float` would accept). -/

/-- Python exceptions distinguished by the model: `ValueError` from a
failed parse or `int(nan)`, `OverflowError` from `int(inf)`, and `OSError`
from file reads.  The source's blanket `except Exception:` treats them all
alike. -/
inductive PyExc where
  | valueError
  | overflowError
  | ioError
deriving DecidableEq, Repr

/-- A Python float: an IEEE-754 binary64 value.  A finite value is
`(-1)^neg * m * 2^k`; parsing produces the canonical rounded form
(`m < 2^53`, and `m ∈ [2^52, 2^53)` unless subnormal with `k = -1074` or
zero). -/
inductive PyFloat where
  | finite : Bool → Nat → Int → PyFloat
  | inf : Bool → PyFloat
  | nan : PyFloat
deriving DecidableEq, Repr

/-- A signed exact decimal `(-1)^neg * mag / 10^e`, the intermediate value
of a parsed literal before binary rounding. -/
structure Dec where
  neg : Bool
  mag : Nat
  e : Nat
deriving DecidableEq, Repr

/-- Numeric value of a digit string, most significant first. -/
def digitsToNat (l : List Char) : Nat :=
  l.foldl (fun a c => a * 10 + (c.toNat - 48)) 0

/-- Split an optional leading sign; returns (isNegative, rest). -/
def parseSign : List Char → Bool × List Char
  | '-' :: r => (true, r)
  | '+' :: r => (false, r)
  | r => (false, r)

/-- A digit or a PEP-515 grouping underscore. -/
def isDigitU (c : Char) : Bool := isDigitChar c || c = '_'

/-- Tail of an underscore-grouped digit run: no trailing underscore and no
two adjacent underscores (each underscore therefore sits between digits). -/
def okTailU : List Char → Bool
  | [] => true
  | ['_'] => false
  | '_' :: '_' :: _ => false
  | _ :: rest => okTailU rest

/-- A valid (possibly empty) underscore-grouped digit run: starts with a
digit and every underscore sits strictly between two digits. -/
def okRunU : List Char → Bool
  | [] => true
  | c :: rest => isDigitChar c && okTailU rest

/-- Remove the grouping underscores. -/
def stripU (l : List Char) : List Char := l.filter (fun c => c != '_')

/-- Unsigned mantissa: `digits`, `digits.digits`, `digits.` or `.digits`
(at least one digit overall, underscore grouping allowed); returns
magnitude and fractional length. -/
def parseMantissa (l : List Char) : Option (Nat × Nat) :=
  let ipRun := l.takeWhile isDigitU
  let r := l.dropWhile isDigitU
  match r with
  | [] =>
    if ipRun.isEmpty || !okRunU ipRun then none
    else some (digitsToNat (stripU ipRun), 0)
  | '.' :: fr =>
    if fr.all isDigitU && okRunU ipRun && okRunU fr &&
        !(ipRun.isEmpty && fr.isEmpty) then
      let ipd := stripU ipRun
      let frd := stripU fr
      some (digitsToNat ipd * 10 ^ frd.length + digitsToNat frd, frd.length)
    else none
  | _ => none

/-- Signed decimal exponent (underscore grouping allowed). -/
def parseSignedInt (l : List Char) : Option ℤ :=
  match parseSign l with
  | (n, r) =>
    if !r.isEmpty && r.all isDigitU && okRunU r then
      some (if n then -(digitsToNat (stripU r) : ℤ) else (digitsToNat (stripU r) : ℤ))
    else none

/-- Scale a decimal by `10 ^ p`. -/
def applyExp (neg : Bool) (mag : Nat) (e : Nat) (p : ℤ) : Dec :=
  if 0 ≤ p then
    if e ≤ p.toNat then ⟨neg, mag * 10 ^ (p.toNat - e), 0⟩
    else ⟨neg, mag, e - p.toNat⟩
  else ⟨neg, mag, e + (-p).toNat⟩

/-- Round `mag / den` to the nearest integer, ties to even. -/
def roundHalfEvenNat (mag den : Nat) : Nat :=
  let q := mag / den
  let r := mag % den
  if 2 * r < den then q
  else if den < 2 * r then q + 1
  else if q % 2 = 0 then q else q + 1

/-- Number of binary digits of `n` (0 for 0), by fuelled halving. -/
def bitLenAux : Nat → Nat → Nat
  | 0, _ => 0
  | Nat.succ fuel, n => if n = 0 then 0 else bitLenAux fuel (n / 2) + 1

/-- Number of binary digits of `n`. -/
def bitLen (n : Nat) : Nat := bitLenAux n n

/-- Is `N / D ≥ 2 ^ L` (for positive `N`, `D`)? -/
def geTwoPow (N D : Nat) (L : ℤ) : Bool :=
  if 0 ≤ L then decide (2 ^ L.toNat * D ≤ N) else decide (D ≤ N * 2 ^ (-L).toNat)

/-- Correctly round the positive rational `N / D` to the nearest binary64
value, ties to even: overflow to an infinity, gradual underflow through
subnormals down to zero. -/
def roundToDouble (neg : Bool) (N D : Nat) : PyFloat :=
  let a := bitLen N
  let b := bitLen D
  let L0 : ℤ := (a : ℤ) - (b : ℤ)
  let L : ℤ := if geTwoPow N D L0 then L0 else L0 - 1
  if L < -1022 then
    PyFloat.finite neg (roundHalfEvenNat (N * 2 ^ 1074) D) (-1074)
  else
    let k : ℤ := L - 52
    let m := if 0 ≤ k then roundHalfEvenNat N (D * 2 ^ k.toNat)
             else roundHalfEvenNat (N * 2 ^ (-k).toNat) D
    let m2 := if m = 2 ^ 53 then 2 ^ 52 else m
    let k2 : ℤ := if m = 2 ^ 53 then k + 1 else k
    if 1023 < k2 + 52 then PyFloat.inf neg else PyFloat.finite neg m2 k2

/-- Binary rounding of a parsed decimal. -/
def decToDouble (d : Dec) : PyFloat :=
  if d.mag = 0 then PyFloat.finite d.neg 0 0
  else roundToDouble d.neg d.mag (10 ^ d.e)

/-- Does `pat` match all of `t`, case-insensitively? -/
def matchCIall (pat : String) (t : List Char) : Bool :=
  match matchCI pat.data t with
  | some [] => true
  | _ => false

/-- The core of `float(val)`: optional sign, then `inf`/`infinity`/`nan`
(case-insensitive) or a decimal literal with optional `e`/`E` exponent,
rounded to binary64. -/
def parsePyFloatCore (l : List Char) : Option PyFloat :=
  match parseSign l with
  | (n, rest) =>
    if matchCIall "infinity" rest || matchCIall "inf" rest then
      some (PyFloat.inf n)
    else if matchCIall "nan" rest then some PyFloat.nan
    else
      let m := rest.takeWhile (fun c => c != 'e' && c != 'E')
      let r := rest.dropWhile (fun c => c != 'e' && c != 'E')
      match r with
      | [] => (parseMantissa m).map (fun p => decToDouble ⟨n, p.1, p.2⟩)
      | _ :: er =>
        match parseMantissa m, parseSignedInt er with
        | some p, some x => some (decToDouble (applyExp n p.1 p.2 x))
        | _, _ => none

/-- `float(val)`: strip surrounding whitespace, then parse; `none` models a
raised `ValueError`. -/
def parsePyFloat (l : List Char) : Option PyFloat :=
  parsePyFloatCore (((l.dropWhile isPySpace).reverse.dropWhile isPySpace).reverse)

/-- Decimal digits of `n`. -/
def natDigits (n : Nat) : List Char := (Nat.repr n).data

/-- `f"{d:.2f}"`: sign, integer part, dot, exactly two fractional digits,
rounding half-to-even on the exact binary value; an infinity prints as
`inf`/`-inf` and a NaN as `nan` (CPython drops the NaN sign). -/
def formatF2 : PyFloat → List Char
  | PyFloat.finite neg m k =>
    let c := if 0 ≤ k then m * 2 ^ k.toNat * 100
             else roundHalfEvenNat (m * 100) (2 ^ (-k).toNat)
    (if neg then ['-'] else []) ++ natDigits (c / 100) ++ '.' ::
      (if c % 100 < 10 then '0' :: natDigits (c % 100) else natDigits (c % 100))
  | PyFloat.inf neg => if neg then '-' :: "inf".data else "inf".data
  | PyFloat.nan => "nan".data

/-- `int(: float)`: truncation toward zero; raises `OverflowError` on an
infinity and `ValueError` on a NaN. -/
def pyTruncE : PyFloat → Except PyExc ℤ
  | PyFloat.finite neg m k =>
    let n := if 0 ≤ k then m * 2 ^ k.toNat else m / 2 ^ (-k).toNat
    Except.ok (if neg then -(n : ℤ) else (n : ℤ))
  | PyFloat.inf _ => Except.error PyExc.overflowError
  | PyFloat.nan => Except.error PyExc.valueError

/-- `str(: int)`. -/
def intRepr (i : ℤ) : List Char :=
  if i < 0 then '-' :: natDigits i.natAbs else natDigits i.natAbs

/-- `f"{float(v):.2f}"` after a successful parse: formatting never
raises. -/
def expFmt (q : PyFloat) : Except PyExc (List Char) :=
  Except.ok (formatF2 q)

/-- `str(int(float(v)))` after a successful parse: `int` may raise on a
non-finite value. -/
def gainFmt (q : PyFloat) : Except PyExc (List Char) :=
  match pyTruncE q with
  | Except.ok i => Except.ok (intRepr i)
  | Except.error e => Except.error e

/-! ### Filter normalization (`FILTER_MAP` and its use at line 198) -/

/-- A resolved filter identifier: either a numeric catalog identifier from
`FILTER_MAP`, or the raw token passed through unchanged.  In the source
both inhabit one dynamically-typed tuple slot; the sum type records which
Python type (int or str) the slot holds. -/
inductive FilterId where
  | num : Nat → FilterId
  | name : String → FilterId
deriving DecidableEq, Repr

/-- The fixed 7-entry filter-name → catalog-identifier table. -/
def FILTER_MAP : List (String × Nat) :=
  [("R", 28943), ("L", 25576), ("G", 28944), ("B", 28945),
   ("H", 4410), ("O", 4415), ("S", 4420)]

/-- `FILTER_MAP.get(k)`: exact, case-sensitive key lookup. -/
def filterMapGet (k : String) : Option Nat :=
  (FILTER_MAP.find? (fun p => p.1 == k)).map (fun p => p.2)

/-- `FILTER_MAP.get(raw_filter, FILTER_MAP.get(raw_filter[0], raw_filter))`:
whole-token lookup, then first-character lookup, then pass-through.
(`raw_filter[0]` would raise on an empty token, but the call site always
supplies a non-empty token since empty extractions default to `"Unknown"`.) -/
def normalizeFilter (raw : String) : FilterId :=
  match filterMapGet raw with
  | some n => FilterId.num n
  | none =>
    match filterMapGet (raw.take 1) with
    | some n => FilterId.num n
    | none => FilterId.name raw

/-! ### Header classification (`process_single_file`) -/

/-- The tuple produced per accepted file: `(date, filter_id, exposure,
binning, gain)`.  It doubles as the aggregation key, exactly as in the
source. -/
structure FrameRecord where
  date : String
  filterId : FilterId
  exposure : String
  binning : String
  gain : String
deriving DecidableEq, Repr

/-- A float-normalized field (`exposure` and `gain`): absent field →
literal `"0"`; present field → parse with `float` (a failed parse raises
`ValueError`) and render with `fmt`, which itself may raise (`int` on a
non-finite value). -/
def floatFieldE (v? : Option (List Char)) (fmt : PyFloat → Except PyExc (List Char)) :
    Except PyExc (List Char) :=
  match v? with
  | some v =>
    match parsePyFloat v with
    | some q => fmt q
    | none => Except.error PyExc.valueError
  | none => Except.ok ['0']

/-- `val.split('T')[0] if val else 'Unknown'`. -/
def dateOf (v? : Option (List Char)) : String :=
  match v? with
  | some dv => String.mk (dv.takeWhile (fun c => c != 'T'))
  | none => "Unknown"

/-- `val if val else "1"`. -/
def binningOf (v? : Option (List Char)) : String :=
  match v? with
  | some bv => String.mk bv
  | none => "1"

/-- The body of the `try` block of `process_single_file` applied to the
already-decoded header text: classification either raises (`ValueError`/
`OverflowError` from the numeric conversions, modelled explicitly) or
returns `None` / a record.  Field evaluation order follows the source:
type gate, filter, exposure, date, gain, binning. -/
def classifyHeaderE (isXisf : Bool) (text : String) : Except PyExc (Option FrameRecord) :=
  let t := text.data
  match fieldVal isXisf typeKeys t with
  | none => Except.ok none
  | some v =>
    if containsSeq ("LIGHT".data) (upperChars v) = false then Except.ok none
    else
      let rawFilter : String :=
        String.mk ((fieldVal isXisf filterKeys t).getD ("Unknown".data))
      match floatFieldE (fieldVal isXisf exposureKeys t) expFmt with
      | Except.error e => Except.error e
      | Except.ok expo =>
        match floatFieldE (fieldVal isXisf gainKeys t) gainFmt with
        | Except.error e => Except.error e
        | Except.ok gain =>
          Except.ok (some ⟨dateOf (fieldVal isXisf dateKeys t),
                           normalizeFilter rawFilter, String.mk expo,
                           binningOf (fieldVal isXisf binningKeys t),
                           String.mk gain⟩)

/-- Classification of an already-read header with the `except Exception:`
handler applied: any raised exception becomes a reject (`none`). -/
def classifyHeader (isXisf : Bool) (text : String) : Option FrameRecord :=
  match classifyHeaderE isXisf text with
  | Except.ok r => r
  | Except.error _ => none

/-- `file_path.lower().endswith('.xisf')`. -/
def isXisfPath (p : String) : Bool :=
  endsWithSeq (".xisf".data) (p.data.map asciiLower)

/-- The file-system environment of one scan: existence per path, and the
outcome of opening a path and reading and decoding its first 50,000 bytes
(`f.read(50000).decode('latin-1', errors='ignore')`) — the read may raise,
the permissive decode never does. -/
structure FS where
  pathExists : String → Bool
  readHeader : String → Except PyExc String

/-- `process_single_file`: reject missing paths, then run the `try` body,
converting any raised exception into a reject for this file only. -/
def process_single_file (fs : FS) (path : String) : Option FrameRecord :=
  if fs.pathExists path = false then none
  else
    match fs.readHeader path with
    | Except.error _ => none
    | Except.ok text => classifyHeader (isXisfPath path) text

/-! ### Path discovery from the log (`process_log`, lines 213–218)

`re.findall(r'\[true,\s*\"(.*?)\"', content)` followed by
`list(set(matches))`.  The pattern is case-sensitive; `.` does not match a
newline; `(.*?)` is lazy, so the capture runs to the first `"` after the
marker; `findall` scans non-overlapping matches left to right. -/

/-- The lazy capture `(.*?)\"`: the shortest newline-free prefix up to a
closing `"`; returns (capture, text after the match). -/
def lazyCapture : List Char → Option (List Char × List Char)
  | [] => none
  | c :: r =>
    if c = '"' then some ([], r)
    else if c = '\n' then none
    else (lazyCapture r).map (fun p => (c :: p.1, p.2))

/-- One attempt of `\[true,\s*\"(.*?)\"` at the current position. -/
def logMatchAt (t : List Char) : Option (List Char × List Char) :=
  match matchLit ("[true,".data) t with
  | none => none
  | some r =>
    match skipWs r with
    | '"' :: r2 => lazyCapture r2
    | _ => none

/-- `re.findall` over the log text: non-overlapping matches, left to
right, each contributing its captured group.  Recursion is fuelled by the
text length, which bounds the number of scan steps. -/
def findTruePathsAux : Nat → List Char → List String
  | 0, _ => []
  | Nat.succ n, [] => (fun _ => []) n
  | Nat.succ n, c :: rest =>
    match logMatchAt (c :: rest) with
    | some (v, after) => String.mk v :: findTruePathsAux n after
    | none => findTruePathsAux n rest

/-- All captured paths of the log text, in match order, duplicates kept. -/
def findTruePaths (t : List Char) : List String :=
  findTruePathsAux t.length t

/-- Append an element unless already present. -/
def setInsert {α : Type} [DecidableEq α] (acc : List α) (x : α) : List α :=
  if x ∈ acc then acc else acc ++ [x]

/-- `list(set(l))`: the distinct elements of `l`.  CPython's set iteration
order is unspecified; the model fixes first-occurrence order, which is
immaterial downstream (the list is only counted, tested for emptiness, and
iterated to submit independent tasks).  The same fold models the key set
of the insertion-ordered `defaultdict`. -/
def dedupFold {α : Type} [DecidableEq α] (l : List α) : List α :=
  l.foldl setInsert []

/-- `PathDiscoverer.discover`: the deduplicated candidate paths of a log. -/
def discover (logText : String) : List String :=
  dedupFold (findTruePaths logText.data)

/-! ### Concurrent scan and aggregation (`process_log`, lines 229–249)

Each worker runs `process_single_file` independently; results are consumed
in completion order.  A completion order is modelled as the list `order` of
paths in the sequence their futures complete. -/

/-- The per-path results in completion order. -/
def scanResults (fs : FS) (order : List String) : List (Option FrameRecord) :=
  order.map (process_single_file fs)

/-- The accepted records in completion order (`if result_key:` filter). -/
def collectRecords (fs : FS) (order : List String) : List FrameRecord :=
  (scanResults fs order).filterMap id

/-- `count_processed`: incremented once per accepted record. -/
def count_processed (fs : FS) (order : List String) : Nat :=
  (collectRecords fs order).length

/-- `grouped_data[result_key] += 1` for one record. -/
def bumpKey (m : FrameRecord → Nat) (k : FrameRecord) : FrameRecord → Nat :=
  fun k2 => if k2 = k then m k2 + 1 else m k2

/-- `grouped_data` as a function after folding a record stream into
`defaultdict(int)`. -/
def aggregate (rs : List FrameRecord) : FrameRecord → Nat :=
  rs.foldl bumpKey (fun _ => 0)

/-- `grouped_data.keys()`: the distinct keys in insertion order. -/
def aggKeys (rs : List FrameRecord) : List FrameRecord :=
  dedupFold rs

/-! ### Final sorting and CSV emission (`process_log`, lines 254–276)

`sorted(grouped_data.keys())` compares the key tuples with Python's
dynamically-typed comparison: per-component equality then `<` on the first
differing component.  Comparing an `int` filter identifier with a `str`
pass-through token raises `TypeError`; `Except.error ()` models the raise,
which the surrounding `try` turns into the "Failed to write CSV" error
path. -/

/-- Code-point lexicographic comparison of Python strings. -/
def cmpChars : List Char → List Char → Ordering
  | [], [] => Ordering.eq
  | [], _ :: _ => Ordering.lt
  | _ :: _, [] => Ordering.gt
  | a :: as, b :: bs =>
    if a < b then Ordering.lt else if b < a then Ordering.gt else cmpChars as bs

/-- Comparison of two strings. -/
def cmpStr (a b : String) : Ordering := cmpChars a.data b.data

/-- Comparison of two naturals. -/
def cmpNat (a b : Nat) : Ordering :=
  if a < b then Ordering.lt else if b < a then Ordering.gt else Ordering.eq

/-- Python comparison of the filter slot: `int` vs `str` is equal under
`==` only when the variants agree; ordering an `int` against a `str`
raises `TypeError`. -/
def pyCmpFilter : FilterId → FilterId → Except Unit Ordering
  | FilterId.num a, FilterId.num b => Except.ok (cmpNat a b)
  | FilterId.name a, FilterId.name b => Except.ok (cmpStr a b)
  | _, _ => Except.error ()

/-- Comparison of the last three (always string) components. -/
def cmpKeyTail (a b : FrameRecord) : Ordering :=
  match cmpStr a.exposure b.exposure with
  | Ordering.eq =>
    match cmpStr a.binning b.binning with
    | Ordering.eq => cmpStr a.gain b.gain
    | o => o
  | o => o

/-- Python tuple comparison of two aggregation keys. -/
def pyCmpKey (a b : FrameRecord) : Except Unit Ordering :=
  match cmpStr a.date b.date with
  | Ordering.eq =>
    match pyCmpFilter a.filterId b.filterId with
    | Except.error _ => Except.error ()
    | Except.ok Ordering.eq => Except.ok (cmpKeyTail a b)
    | Except.ok o => Except.ok o
  | o => Except.ok o

/-- Insert a key into an already-sorted list, propagating a comparison
`TypeError`. -/
def insertSorted (k : FrameRecord) : List FrameRecord → Except Unit (List FrameRecord)
  | [] => Except.ok [k]
  | x :: xs =>
    match pyCmpKey k x with
    | Except.error _ => Except.error ()
    | Except.ok Ordering.lt => Except.ok (k :: x :: xs)
    | Except.ok _ =>
      match insertSorted k xs with
      | Except.error _ => Except.error ()
      | Except.ok ys => Except.ok (x :: ys)

/-- `sorted(keys)`: ascending order when every needed comparison is
defined, a raised `TypeError` otherwise. -/
def pySorted : List FrameRecord → Except Unit (List FrameRecord)
  | [] => Except.ok []
  | x :: xs =>
    match pySorted xs with
    | Except.error _ => Except.error ()
    | Except.ok ys => insertSorted x ys

/-- One CSV data row as handed to `csv.DictWriter.writerow`. -/
structure CsvRow where
  date : String
  filter : FilterId
  number : Nat
  duration : String
  binning : String
  gain : String
  bortle : Nat
deriving DecidableEq, Repr

/-- The `fieldnames` list of the CSV writer: the column names in emission
order. -/
def fieldnames : List String :=
  ["date", "filter", "number", "duration", "binning", "gain", "bortle"]

/-- The row written for one aggregation key. -/
def mkRow (rs : List FrameRecord) (bortle : Nat) (k : FrameRecord) : CsvRow :=
  ⟨k.date, k.filterId, aggregate rs k, k.exposure, k.binning, k.gain, bortle⟩

/-- The data rows of the persisted table: sorted keys, one row each;
`Except.error ()` models the `TypeError` raised inside the CSV `try`
block, after which nothing is persisted. -/
def buildCsvRows (rs : List FrameRecord) (bortle : Nat) : Except Unit (List CsvRow) :=
  match pySorted (aggKeys rs) with
  | Except.error _ => Except.error ()
  | Except.ok ks => Except.ok (ks.map (mkRow rs bortle))

/-- The aggregation key a row was generated from. -/
def CsvRow.key (r : CsvRow) : FrameRecord :=
  ⟨r.date, r.filter, r.duration, r.binning, r.gain⟩

/-- End-to-end table construction of one scan session. -/
def runTable (fs : FS) (order : List String) (bortle : Nat) :
    Except Unit (List CsvRow) :=
  buildCsvRows (collectRecords fs order) bortle

/-! ### Concrete scenario inputs

FITS-style header texts and the records they classify to, used to
instantiate the general theorems and to exhibit failing inputs. -/

/-- A LIGHT frame header, filter `R`. -/
def hdrR : String :=
  "IMAGETYP= \x27LIGHT\x27\nFILTER  = \x27R\x27\nEXPTIME =               30.0\nDATE-OBS= \x272024-05-01T01:02:03\x27\nGAIN    =                  100\nXBINNING=                    1\n"

/-- The same LIGHT frame header with the unmapped filter token `Xy`. -/
def hdrXy : String :=
  "IMAGETYP= \x27LIGHT\x27\nFILTER  = \x27Xy\x27\nEXPTIME =               30.0\nDATE-OBS= \x272024-05-01T01:02:03\x27\nGAIN    =                  100\nXBINNING=                    1\n"

/-- The same LIGHT frame header with filter `G`. -/
def hdrG : String :=
  "IMAGETYP= \x27LIGHT\x27\nFILTER  = \x27G\x27\nEXPTIME =               30.0\nDATE-OBS= \x272024-05-01T01:02:03\x27\nGAIN    =                  100\nXBINNING=                    1\n"

/-- A calibration (BIAS) frame header. -/
def hdrBias : String := "IMAGETYP= \x27Bias\x27\nEXPTIME = 0.001\n"

/-- A LIGHT frame header whose exposure value does not parse as a float. -/
def hdrBadExp : String := "IMAGETYP= \x27LIGHT\x27\nEXPTIME = \x27abc\x27\n"

/-- A LIGHT frame header whose gain value does not parse as a float. -/
def hdrBadGain : String := "IMAGETYP= \x27LIGHT\x27\nGAIN    = \x27abc\x27\n"

/-- A LIGHT frame header with no exposure field at all. -/
def hdrNoExp : String :=
  "IMAGETYP= \x27LIGHT\x27\nFILTER  = \x27R\x27\nDATE-OBS= \x272024-05-01T01:02:03\x27\nGAIN    = 100\nXBINNING= 1\n"

/-- The record classified from `hdrR`. -/
def recR : FrameRecord :=
  ⟨"2024-05-01", FilterId.num 28943, "30.00", "1", "100"⟩

/-- The record classified from `hdrG`. -/
def recG : FrameRecord :=
  ⟨"2024-05-01", FilterId.num 28944, "30.00", "1", "100"⟩

/-- The record classified from `hdrXy`: a pass-through (string) filter. -/
def recXy : FrameRecord :=
  ⟨"2024-05-01", FilterId.name "Xy", "30.00", "1", "100"⟩

/-- The record classified from `hdrNoExp`: note the literal `"0"`. -/
def recNoExp : FrameRecord :=
  ⟨"2024-05-01", FilterId.num 28943, "0", "1", "100"⟩

/-- A file system on which every read raises. -/
def fsErr : FS := ⟨fun _ => true, fun _ => Except.error PyExc.ioError⟩

/-- A three-file file system: two reads yield the `R` header, one the `G`
header. -/
def fsDemo : FS :=
  ⟨fun _ => true,
   fun p =>
     if p = "a.fits" then Except.ok hdrR
     else if p = "b.fits" then Except.ok hdrG
     else if p = "c.fits" then Except.ok hdrR
     else Except.error PyExc.ioError⟩

/-- A log with the same successfully-registered path twice. -/
def dupLog : String :=
  "start [true, \"a.fits\"] middle [true, \"a.fits\"] end"

/-- A log with only a failed-registration entry. -/
def falseLog : String := "[false, \"b.fits\"]"

/-- The row of key `recR` in the session `[recR, recG]`, bortle 4. -/
def rowR9 : CsvRow := ⟨"2024-05-01", FilterId.num 28943, 1, "30.00", "1", "100", 4⟩

/-- The row of key `recG` in the session `[recR, recG]`, bortle 4. -/
def rowG9 : CsvRow := ⟨"2024-05-01", FilterId.num 28944, 1, "30.00", "1", "100", 4⟩

/-- The row of key `recR` in the three-file demo session (count 2). -/
def rowR10 : CsvRow := ⟨"2024-05-01", FilterId.num 28943, 2, "30.00", "1", "100", 4⟩

/-- The row of key `recG` in the three-file demo session (count 1). -/
def rowG10 : CsvRow := ⟨"2024-05-01", FilterId.num 28944, 1, "30.00", "1", "100", 4⟩

/-! ## Theorems -/

/-! ### Helper lemmas on aggregation and deduplication -/

/-- Folding `bumpKey` adds the occurrence count to the starting map. -/
theorem foldl_bumpKey_count (rs : List FrameRecord) :
    ∀ (m : FrameRecord → Nat) (k : FrameRecord),
      rs.foldl bumpKey m k = m k + rs.count k := by
  induction rs with
  | nil => intro m k; simp
  | cons r rs ih =>
    intro m k
    rw [List.foldl_cons, ih, List.count_cons]
    by_cases h : k = r
    · subst h; simp [bumpKey]; omega
    · have h2 : (r == k) = false := by simp [h]; exact fun e => h e.symm
      simp [bumpKey, h, h2]

/-- The aggregated count of a key is its number of occurrences. -/
theorem aggregate_count (rs : List FrameRecord) (k : FrameRecord) :
    aggregate rs k = rs.count k := by
  rw [aggregate, foldl_bumpKey_count]
  omega

/-- Membership through the dedup fold. -/
theorem mem_foldl_setInsert {α : Type} [DecidableEq α] (l : List α) :
    ∀ (acc : List α) (x : α),
      x ∈ l.foldl setInsert acc ↔ x ∈ acc ∨ x ∈ l := by
  induction l with
  | nil => intro acc x; simp
  | cons a l ih =>
    intro acc x
    rw [List.foldl_cons, ih]
    unfold setInsert
    by_cases h : a ∈ acc
    · simp only [if_pos h, List.mem_cons]
      constructor
      · rintro (hx | hx)
        · exact Or.inl hx
        · exact Or.inr (Or.inr hx)
      · rintro (hx | hx | hx)
        · exact Or.inl hx
        · exact Or.inl (hx ▸ h)
        · exact Or.inr hx
    · simp only [if_neg h, List.mem_append, List.mem_singleton, List.mem_cons]
      tauto

/-- `dedupFold` preserves membership. -/
theorem mem_dedupFold {α : Type} [DecidableEq α] (l : List α) (x : α) :
    x ∈ dedupFold l ↔ x ∈ l := by
  rw [dedupFold, mem_foldl_setInsert]; simp

/-- The dedup fold preserves `Nodup` of the accumulator. -/
theorem nodup_foldl_setInsert {α : Type} [DecidableEq α] (l : List α) :
    ∀ (acc : List α), acc.Nodup → (l.foldl setInsert acc).Nodup := by
  induction l with
  | nil => intro acc h; simpa using h
  | cons a l ih =>
    intro acc h
    rw [List.foldl_cons]
    apply ih
    unfold setInsert
    by_cases ha : a ∈ acc
    · simpa [ha] using h
    · simp [ha, List.nodup_append, h]

/-- `dedupFold` yields a duplicate-free list. -/
theorem nodup_dedupFold {α : Type} [DecidableEq α] (l : List α) :
    (dedupFold l).Nodup :=
  nodup_foldl_setInsert l [] List.nodup_nil

/-- Folding a constant list onto `[k]` leaves `[k]`. -/
theorem foldl_setInsert_const {α : Type} [DecidableEq α] (k : α) (l : List α) :
    (∀ x ∈ l, x = k) → l.foldl setInsert [k] = [k] := by
  induction l with
  | nil => intro _; rfl
  | cons a l ih =>
    intro h
    have ha : a = k := h a (List.mem_cons_self a l)
    rw [List.foldl_cons, ha]
    have : setInsert [k] k = [k] := by simp [setInsert]
    rw [this]
    exact ih (fun x hx => h x (List.mem_cons_of_mem a hx))

/-- Deduplicating a non-empty constant list gives the singleton. -/
theorem dedupFold_const {α : Type} [DecidableEq α] (k : α) (l : List α)
    (h : ∀ x ∈ l, x = k) (hne : l ≠ []) : dedupFold l = [k] := by
  match l, hne with
  | a :: l, _ =>
    have ha : a = k := h a (List.mem_cons_self a l)
    rw [dedupFold, List.foldl_cons, ha]
    have : setInsert [] k = [k] := by simp [setInsert]
    rw [this]
    exact foldl_setInsert_const k l (fun x hx => h x (List.mem_cons_of_mem a hx))

/-- The sum of the per-key counts over the distinct keys is the total
number of records. -/
theorem sum_counts_dedupFold {α : Type} [DecidableEq α] (l : List α) :
    ((dedupFold l).map (fun k => l.count k)).sum = l.length := by
  have nd := nodup_dedupFold l
  have hset : (dedupFold l).toFinset = l.toFinset := by
    apply Finset.ext
    intro x
    simp [List.mem_toFinset, mem_dedupFold]
  calc ((dedupFold l).map (fun k => l.count k)).sum
      = (dedupFold l).toFinset.sum (fun k => l.count k) :=
        (List.sum_toFinset _ nd).symm
    _ = l.toFinset.sum (fun k => l.count k) := by rw [hset]
    _ = l.length := List.sum_toFinset_count_eq_length l

/-! ### Helper lemmas on the sort step -/

/-- A successful insertion permutes the inserted element in. -/
theorem insertSorted_perm (k : FrameRecord) :
    ∀ (l l' : List FrameRecord), insertSorted k l = Except.ok l' →
      l'.Perm (k :: l) := by
  intro l
  induction l with
  | nil =>
    intro l' h
    simp only [insertSorted] at h
    cases h
    exact List.Perm.refl _
  | cons x xs ih =>
    intro l' h
    simp only [insertSorted] at h
    cases hc : pyCmpKey k x with
    | error e => rw [hc] at h; cases h
    | ok o =>
      rw [hc] at h
      cases o with
      | lt => cases h; exact List.Perm.refl _
      | eq =>
        cases hi : insertSorted k xs with
        | error e => rw [hi] at h; cases h
        | ok ys =>
          rw [hi] at h; cases h
          exact (List.Perm.cons x (ih ys hi)).trans (List.Perm.swap k x xs)
      | gt =>
        cases hi : insertSorted k xs with
        | error e => rw [hi] at h; cases h
        | ok ys =>
          rw [hi] at h; cases h
          exact (List.Perm.cons x (ih ys hi)).trans (List.Perm.swap k x xs)

/-- A successful sort is a permutation of its input. -/
theorem pySorted_perm :
    ∀ (l l' : List FrameRecord), pySorted l = Except.ok l' → l'.Perm l := by
  intro l
  induction l with
  | nil =>
    intro l' h
    simp only [pySorted] at h
    cases h
    exact List.Perm.refl _
  | cons x xs ih =>
    intro l' h
    simp only [pySorted] at h
    cases hs : pySorted xs with
    | error e => rw [hs] at h; cases h
    | ok ys =>
      rw [hs] at h
      exact (insertSorted_perm x ys l' h).trans (List.Perm.cons x (ih ys hs))

/-! ### Helper lemmas on classification -/

/-- A float-normalized field succeeding on a present value means the value
parsed, and the result is its rendering. -/
theorem floatFieldE_some_inv (v : List Char)
    (fmt : PyFloat → Except PyExc (List Char))
    (e : List Char) (h : floatFieldE (some v) fmt = Except.ok e) :
    ∃ q, parsePyFloat v = some q ∧ fmt q = Except.ok e := by
  simp only [floatFieldE] at h
  cases hp : parsePyFloat v with
  | none => rw [hp] at h; cases h
  | some q =>
    rw [hp] at h
    exact ⟨q, rfl, h⟩

/-- Inversion of a successful classification: the type field matched and
contained `LIGHT`, both float fields normalized without raising, and the
record is built field-by-field as in the source. -/
theorem classify_some_inv (b : Bool) (t : String) (r : FrameRecord)
    (h : classifyHeader b t = some r) :
    ∃ v expo gain,
      fieldVal b typeKeys t.data = some v ∧
      containsSeq ("LIGHT".data) (upperChars v) = true ∧
      floatFieldE (fieldVal b exposureKeys t.data) expFmt = Except.ok expo ∧
      floatFieldE (fieldVal b gainKeys t.data) gainFmt = Except.ok gain ∧
      r = ⟨dateOf (fieldVal b dateKeys t.data),
           normalizeFilter
             (String.mk ((fieldVal b filterKeys t.data).getD ("Unknown".data))),
           String.mk expo,
           binningOf (fieldVal b binningKeys t.data),
           String.mk gain⟩ := by
  unfold classifyHeader at h
  cases hE : classifyHeaderE b t with
  | error e => rw [hE] at h; cases h
  | ok o =>
    rw [hE] at h
    subst h
    simp only [classifyHeaderE] at hE
    cases ht : fieldVal b typeKeys t.data with
    | none => rw [ht] at hE; simp at hE
    | some v =>
      rw [ht] at hE
      simp only at hE
      by_cases hl : containsSeq ("LIGHT".data) (upperChars v) = false
      · rw [if_pos hl] at hE; simp at hE
      · rw [if_neg hl] at hE
        cases he : floatFieldE (fieldVal b exposureKeys t.data) expFmt with
        | error e => rw [he] at hE; cases hE
        | ok expo =>
          rw [he] at hE
          cases hg : floatFieldE (fieldVal b gainKeys t.data) gainFmt with
          | error e => rw [hg] at hE; cases hE
          | ok gain =>
            rw [hg] at hE
            cases hE
            exact ⟨v, expo, gain, rfl, eq_true_of_ne_false hl, rfl, rfl, rfl⟩

/-- A header without a recognizable type field is rejected. -/
theorem classify_type_missing (b : Bool) (t : String)
    (h : fieldVal b typeKeys t.data = none) : classifyHeader b t = none := by
  simp only [classifyHeader, classifyHeaderE, h]

/-- A header whose type value does not contain `LIGHT` (after uppercasing)
is rejected. -/
theorem classify_not_light (b : Bool) (t : String) (v : List Char)
    (h : fieldVal b typeKeys t.data = some v)
    (hl : containsSeq ("LIGHT".data) (upperChars v) = false) :
    classifyHeader b t = none := by
  simp only [classifyHeader, classifyHeaderE, h, hl, if_true]

/-! ### Claim theorems -/

/-- **C1** (code bug): the claim says every finished scan session emits the
summary table sorted ascending over the key tuple.  But two legitimately
classified LIGHT frames of the same date — one with the mapped filter `R`
(numeric identifier 28943), one with the unmapped token `Xy` (string
pass-through) — give a key set on which `sorted()` compares an `int` with a
`str` and raises `TypeError`: the emission inside the CSV `try` block
fails and no table is handed over at all. -/
theorem claim1_mixed_filter_sort_crash :
    classifyHeader false hdrR = some recR ∧
    classifyHeader false hdrXy = some recXy ∧
    buildCsvRows [recR, recXy] 4 = Except.error () := by
  refine ⟨by decide, by decide, rfl⟩

/-- **C2**: an exception raised while reading a single candidate file is
converted into a reject for that file only: its result is `none`, an
exception inside header classification likewise yields `none`, every other
file classifies exactly as it would on a file system agreeing outside the
failing path, and the scan still produces one result per candidate path
(it is never aborted). -/
theorem claim2_per_file_failure_localized (fs fs' : FS) (p : String) (e : PyExc)
    (hread : fs.readHeader p = Except.error e) :
    process_single_file fs p = none ∧
    (∀ (b : Bool) (t : String) (e2 : PyExc),
        classifyHeaderE b t = Except.error e2 → classifyHeader b t = none) ∧
    ((∀ q, q ≠ p → fs.pathExists q = fs'.pathExists q ∧
         fs.readHeader q = fs'.readHeader q) →
      ∀ q, q ≠ p → process_single_file fs q = process_single_file fs' q) ∧
    (∀ order : List String, (scanResults fs order).length = order.length) := by
  refine ⟨?_, ?_, ?_, ?_⟩
  · unfold process_single_file
    by_cases hex : fs.pathExists p = false
    · simp [hex]
    · simp [hex, hread]
  · intro b t e2 h
    unfold classifyHeader
    rw [h]
  · intro hagree q hq
    unfold process_single_file
    rw [(hagree q hq).1, (hagree q hq).2]
  · intro order
    unfold scanResults
    rw [List.length_map]

/-- **C2** witness: on a file system where every read raises, the single
file is rejected rather than aborting anything. -/
theorem claim2_witness : process_single_file fsErr "a.fits" = none :=
  (claim2_per_file_failure_localized fsErr fsErr "a.fits" PyExc.ioError rfl).1

/-- **C3**: a `FrameRecord` is produced only when the extracted type value
exists and contains `LIGHT` case-insensitively; a missing type field or a
non-LIGHT type value is rejected. -/
theorem claim3_light_gate (b : Bool) (t : String) :
    (∀ r : FrameRecord, classifyHeader b t = some r →
       ∃ v, fieldVal b typeKeys t.data = some v ∧
         containsSeq ("LIGHT".data) (upperChars v) = true) ∧
    (fieldVal b typeKeys t.data = none → classifyHeader b t = none) ∧
    (∀ v, fieldVal b typeKeys t.data = some v →
       containsSeq ("LIGHT".data) (upperChars v) = false →
       classifyHeader b t = none) := by
  refine ⟨?_, classify_type_missing b t, classify_not_light b t⟩
  intro r h
  obtain ⟨v, expo, gain, h1, h2, _⟩ := classify_some_inv b t r h
  exact ⟨v, h1, h2⟩

/-- **C3** witness: a calibration (BIAS) header is rejected. -/
theorem claim3_witness : classifyHeader false hdrBias = none :=
  (claim3_light_gate false hdrBias).2.2 ("Bias".data) (by decide) (by decide)

/-- **C4** counterexample: a LIGHT header whose exposure value `abc` does
not parse as a float produces no `FrameRecord` at all — the `ValueError`
from `float` rejects the whole file — contradicting the claim that an
unparseable exposure yields a record with exposure `"0"`. -/
theorem claim4_counterexample :
    fieldVal false typeKeys hdrBadExp.data = some ("LIGHT".data) ∧
    fieldVal false exposureKeys hdrBadExp.data = some ("abc".data) ∧
    parsePyFloat ("abc".data) = none ∧
    (¬ ∃ r : FrameRecord, classifyHeader false hdrBadExp = some r) := by
  refine ⟨by decide, by decide, by decide, ?_⟩
  rintro ⟨r, hr⟩
  have h0 : classifyHeader false hdrBadExp = none := by decide
  rw [h0] at hr
  cases hr

/-- **C4** (amended): in every produced `FrameRecord` the exposure is the
raw value converted by `float` to the nearest binary64 double and
reformatted to exactly two decimals when the field is present (a present
but unparseable value rejects the whole file, so no record exists for it),
and the literal `"0"` when the field is absent.  Concretely, `30` renders
as `"30.00"`, `2.675` as `"2.67"` (the double rounds below the decimal
tie), and `inf` parses and renders as `"inf"`. -/
theorem claim4_exposure_normalization (b : Bool) (t : String) (r : FrameRecord)
    (h : classifyHeader b t = some r) :
    (fieldVal b exposureKeys t.data = none → r.exposure = "0") ∧
    (∀ v, fieldVal b exposureKeys t.data = some v →
       ∃ q, parsePyFloat v = some q ∧ r.exposure = String.mk (formatF2 q)) ∧
    (parsePyFloat ("30".data)).map (fun q => String.mk (formatF2 q)) = some "30.00" ∧
    (parsePyFloat ("2.675".data)).map (fun q => String.mk (formatF2 q)) = some "2.67" ∧
    (parsePyFloat ("inf".data)).map (fun q => String.mk (formatF2 q)) = some "inf" := by
  obtain ⟨v, expo, gain, h1, h2, he, hg, hr⟩ := classify_some_inv b t r h
  subst hr
  refine ⟨?_, ?_, by decide, by decide, by decide⟩
  · intro hnone
    rw [hnone] at he
    simp only [floatFieldE] at he
    cases he
    rfl
  · intro ev hev
    rw [hev] at he
    obtain ⟨q, hq, hfmt⟩ := floatFieldE_some_inv ev expFmt expo he
    simp only [expFmt] at hfmt
    cases hfmt
    exact ⟨q, hq, rfl⟩

/-- **C4** witness: the LIGHT header with no exposure field classifies to a
record whose exposure is the literal `"0"`. -/
theorem claim4_witness : recNoExp.exposure = "0" :=
  (claim4_exposure_normalization false hdrNoExp recNoExp (by decide)).1 (by decide)

/-- **C5**: aggregation is order-independent — permuting the record stream
leaves both the count function and the key set unchanged — and a stream of
records sharing one key yields exactly that key with its count equal to
the stream length. -/
theorem claim5_aggregation_order_independent :
    (∀ l l' : List FrameRecord, l.Perm l' →
       aggregate l = aggregate l' ∧ (∀ k, k ∈ aggKeys l ↔ k ∈ aggKeys l')) ∧
    (∀ (k : FrameRecord) (l : List FrameRecord),
       (∀ x ∈ l, x = k) → l ≠ [] →
       aggKeys l = [k] ∧ aggregate l k = l.length) := by
  constructor
  · intro l l' hp
    constructor
    · funext k
      rw [aggregate_count, aggregate_count, hp.count_eq]
    · intro k
      unfold aggKeys
      rw [mem_dedupFold, mem_dedupFold]
      exact hp.mem_iff
  · intro k l hall hne
    refine ⟨dedupFold_const k l hall hne, ?_⟩
    rw [aggregate_count]
    induction l with
    | nil => rfl
    | cons a l ih =>
      have ha : a = k := hall a (List.mem_cons_self a l)
      subst ha
      rw [List.count_cons_self, List.length_cons]
      by_cases hl : l = []
      · subst hl; rfl
      · rw [ih (fun x hx => hall x (List.mem_cons_of_mem a hx)) hl]

/-- **C5** witness: a transposed two-record stream aggregates identically,
and two records with one shared key give one key with count 2. -/
theorem claim5_witness :
    aggregate [recR, recG] = aggregate [recG, recR] ∧
    aggKeys [recR, recR] = [recR] ∧
    aggregate [recR, recR] recR = 2 := by
  refine ⟨(claim5_aggregation_order_independent.1 [recR, recG] [recG, recR]
    (List.Perm.swap recG recR [])).1, ?_, ?_⟩
  · exact (claim5_aggregation_order_independent.2 recR [recR, recR]
      (by decide) (by decide)).1
  · exact (claim5_aggregation_order_independent.2 recR [recR, recR]
      (by decide) (by decide)).2

/-- **C6**: filter normalization tries the whole token in the 7-entry
table, then its first character, then passes the token through unchanged;
`R ↦ 28943`, `H ↦ 4410`, `Ha ↦ 4410` by first-character fallback. -/
theorem claim6_filter_normalization :
    normalizeFilter "R" = FilterId.num 28943 ∧
    normalizeFilter "H" = FilterId.num 4410 ∧
    normalizeFilter "Ha" = FilterId.num 4410 ∧
    (∀ (t : String) (n : Nat), filterMapGet t = some n →
       normalizeFilter t = FilterId.num n) ∧
    (∀ (t : String) (n : Nat), filterMapGet t = none →
       filterMapGet (t.take 1) = some n → normalizeFilter t = FilterId.num n) ∧
    (∀ t : String, filterMapGet t = none → filterMapGet (t.take 1) = none →
       normalizeFilter t = FilterId.name t) := by
  refine ⟨by decide, by decide, by decide, ?_, ?_, ?_⟩
  · intro t n h
    unfold normalizeFilter
    rw [h]
  · intro t n h h1
    unfold normalizeFilter
    rw [h, h1]
  · intro t h h1
    unfold normalizeFilter
    rw [h, h1]

/-- **C6** witness: an unmapped numeric identifier string passes through
unchanged. -/
theorem claim6_witness : normalizeFilter "42" = FilterId.name "42" :=
  claim6_filter_normalization.2.2.2.2.2 "42" (by decide) (by decide)

/-- **C7**: path discovery returns the deduplicated successful-registration
paths: the result is duplicate-free and contains exactly the strings
captured after a `[true, ` marker; a duplicated `[true, "a.fits"]` entry
contributes one candidate and a `[false, "b.fits"]` entry contributes
none. -/
theorem claim7_path_discovery :
    (∀ s : String, (discover s).Nodup ∧
       ∀ p, p ∈ discover s ↔ p ∈ findTruePaths s.data) ∧
    discover dupLog = ["a.fits"] ∧
    discover falseLog = [] := by
  refine ⟨?_, by decide, by decide⟩
  intro s
  exact ⟨nodup_dedupFold _, fun p => mem_dedupFold _ p⟩

/-- **C8** counterexample: a LIGHT header whose gain value `abc` does not
parse as a float produces no `FrameRecord` at all — the `ValueError` from
`float` rejects the whole file — contradicting the claim that an
unparseable gain yields a record with gain `"0"`. -/
theorem claim8_counterexample :
    fieldVal false typeKeys hdrBadGain.data = some ("LIGHT".data) ∧
    fieldVal false gainKeys hdrBadGain.data = some ("abc".data) ∧
    (¬ ∃ r : FrameRecord, classifyHeader false hdrBadGain = some r) := by
  refine ⟨by decide, by decide, ?_⟩
  rintro ⟨r, hr⟩
  have h0 : classifyHeader false hdrBadGain = none := by decide
  rw [h0] at hr
  cases hr

/-- **C8** (amended): in every produced `FrameRecord` the date is the raw
date truncated at the first `T` (absent → `"Unknown"`), the gain is the
raw gain converted by `float` to the nearest binary64 double, truncated
toward zero by `int` and rendered as an integer string when the field is
present and the value finite (an unparseable value, or `int` raising on an
infinity or NaN, rejects the whole file) and `"0"` when absent, and the
binning is the raw string passed through (absent → `"1"`).  Concretely,
a gain of `0.99999999999999999` yields `"1"` (the double rounds up to
`1.0`) and a gain of `inf` rejects the file. -/
theorem claim8_date_gain_binning (b : Bool) (t : String) (r : FrameRecord)
    (h : classifyHeader b t = some r) :
    (∀ v, fieldVal b dateKeys t.data = some v →
       r.date = String.mk (v.takeWhile (fun c => c != 'T'))) ∧
    (fieldVal b dateKeys t.data = none → r.date = "Unknown") ∧
    (∀ v, fieldVal b gainKeys t.data = some v →
       ∃ q i, parsePyFloat v = some q ∧ pyTruncE q = Except.ok i ∧
         r.gain = String.mk (intRepr i)) ∧
    (fieldVal b gainKeys t.data = none → r.gain = "0") ∧
    (∀ v, fieldVal b binningKeys t.data = some v → r.binning = String.mk v) ∧
    (fieldVal b binningKeys t.data = none → r.binning = "1") ∧
    (parsePyFloat ("0.99999999999999999".data)).map gainFmt =
      some (Except.ok ("1".data)) ∧
    (parsePyFloat ("inf".data)).map gainFmt =
      some (Except.error PyExc.overflowError) := by
  obtain ⟨v, expo, gain, h1, h2, he, hg, hr⟩ := classify_some_inv b t r h
  subst hr
  refine ⟨?_, ?_, ?_, ?_, ?_, ?_, by rfl, by rfl⟩
  · intro dv hdv
    show dateOf (fieldVal b dateKeys t.data) = _
    rw [hdv]
    rfl
  · intro hdn
    show dateOf (fieldVal b dateKeys t.data) = _
    rw [hdn]
    rfl
  · intro gv hgv
    rw [hgv] at hg
    obtain ⟨q, hq, hfmt⟩ := floatFieldE_some_inv gv gainFmt gain hg
    simp only [gainFmt] at hfmt
    cases hti : pyTruncE q with
    | error e2 => rw [hti] at hfmt; cases hfmt
    | ok i =>
      rw [hti] at hfmt
      cases hfmt
      exact ⟨q, i, hq, hti, rfl⟩
  · intro hgn
    rw [hgn] at hg
    simp only [floatFieldE] at hg
    cases hg
    rfl
  · intro bv hbv
    show binningOf (fieldVal b binningKeys t.data) = _
    rw [hbv]
    rfl
  · intro hbn
    show binningOf (fieldVal b binningKeys t.data) = _
    rw [hbn]
    rfl

/-- **C8** witness: the record of `hdrR` carries the date truncated at the
`T` separator. -/
theorem claim8_witness :
    recR.date = String.mk (("2024-05-01T01:02:03".data).takeWhile (fun c => c != 'T')) :=
  (claim8_date_gain_binning false hdrR recR (by decide)).1
    ("2024-05-01T01:02:03".data) (by decide)

/-- **C9**: whenever a table is persisted, its header is exactly
`date, filter, number, duration, binning, gain, bortle` in that order,
there is exactly one row per distinct aggregation key (duplicate-free, and
a row for a key exactly when some record carries it), each row's `number`
is the key's aggregated count, and every row repeats the constant
user-supplied bortle value. -/
theorem claim9_table_shape (rs : List FrameRecord) (b : Nat) (rows : List CsvRow)
    (h : buildCsvRows rs b = Except.ok rows) :
    fieldnames = ["date", "filter", "number", "duration", "binning", "gain", "bortle"] ∧
    (rows.map CsvRow.key).Nodup ∧
    (∀ k, k ∈ rows.map CsvRow.key ↔ k ∈ rs) ∧
    (∀ row ∈ rows, row.number = aggregate rs (CsvRow.key row) ∧ row.bortle = b) := by
  unfold buildCsvRows at h
  cases hs : pySorted (aggKeys rs) with
  | error e => rw [hs] at h; cases h
  | ok ks =>
    rw [hs] at h
    cases h
    have hperm : ks.Perm (aggKeys rs) := pySorted_perm _ _ hs
    have hmap : (ks.map (mkRow rs b)).map CsvRow.key = ks := by
      rw [List.map_map]
      have hid : CsvRow.key ∘ mkRow rs b = id := funext (fun k => rfl)
      rw [hid, List.map_id]
    refine ⟨rfl, ?_, ?_, ?_⟩
    · rw [hmap]
      exact (hperm.nodup_iff).mpr (nodup_dedupFold rs)
    · intro k
      rw [hmap, hperm.mem_iff]
      unfold aggKeys
      exact mem_dedupFold rs k
    · intro row hrow
      obtain ⟨k, hk, hkeq⟩ := List.mem_map.mp hrow
      subst hkeq
      exact ⟨rfl, rfl⟩

/-- **C9** witness: the concrete two-key session persists one row per key
with the bortle value on each row. -/
theorem claim9_witness : ([rowR9, rowG9].map CsvRow.key).Nodup :=
  (claim9_table_shape [recR, recG] 4 [rowR9, rowG9] rfl).2.1

/-- **C10**: when a table is persisted, the sum of the `number` column over
its rows equals the count of successfully processed files reported in the
success message; appending an accepted record bumps its key's count by
one, and a rejected result contributes to neither counter. -/
theorem claim10_count_conservation (fs : FS) (order : List String) (b : Nat)
    (rows : List CsvRow)
    (h : buildCsvRows (collectRecords fs order) b = Except.ok rows) :
    (rows.map CsvRow.number).sum = count_processed fs order ∧
    (∀ (rs : List FrameRecord) (k : FrameRecord),
       aggregate (rs ++ [k]) k = aggregate rs k + 1) ∧
    (∀ res : List (Option FrameRecord),
       ((res ++ [none]).filterMap id).length = (res.filterMap id).length) := by
  refine ⟨?_, ?_, ?_⟩
  · unfold buildCsvRows at h
    cases hs : pySorted (aggKeys (collectRecords fs order)) with
    | error e => rw [hs] at h; cases h
    | ok ks =>
      rw [hs] at h
      cases h
      have hperm : ks.Perm (aggKeys (collectRecords fs order)) :=
        pySorted_perm _ _ hs
      have h1 : ((ks.map (mkRow (collectRecords fs order) b)).map CsvRow.number)
          = ks.map (fun k => aggregate (collectRecords fs order) k) := by
        rw [List.map_map]
        rfl
      rw [h1]
      have h2 := (hperm.map (fun k => aggregate (collectRecords fs order) k)).sum_eq
      rw [h2]
      have h3 : (fun k => aggregate (collectRecords fs order) k)
          = (fun k => (collectRecords fs order).count k) :=
        funext (aggregate_count (collectRecords fs order))
      rw [h3]
      exact sum_counts_dedupFold (collectRecords fs order)
  · intro rs k
    rw [aggregate_count, aggregate_count, List.count_append]
    simp
  · intro res
    rw [List.filterMap_append]
    simp

/-- **C10** witness: the three-file session (two frames on one key, one on
another) reports 3 processed files, matching the row counts 2 + 1. -/
theorem claim10_witness :
    ([rowR10, rowG10].map CsvRow.number).sum =
      count_processed fsDemo ["a.fits", "b.fits", "c.fits"] :=
  (claim10_count_conservation fsDemo ["a.fits", "b.fits", "c.fits"] 4
    [rowR10, rowG10] rfl).1

end AstrobinWBPP
